import Mathlib

/-!
# cks-terminal-mgmt: session manager, port allocator and tunnel relay

A shallow embedding of `internal/terminal/manager.go` and of the route table
of `internal/server/server.go`, followed by theorems about them.

Conventions of the embedding

* Go `int` values (ports, the cursor) are `Int`s between -2^63 and 2^63 - 1:
  a `Manager` carries the proof that its three `int` fields are, and the
  two places where `allocatePort` computes with them, `m.nextPort++` and
  `m.portEnd-m.portStart`, wrap round as 64-bit arithmetic does.
* The Go map `sessions` is an association list with at most one pair per
  key; `Sessions.insert` replaces, as a map assignment does.
* Every critical section of the mutex `mu` is one atomic function on the
  state.  While `HandleTerminal` polls the backend it holds no lock; what
  other goroutines do to the state in that time is an argument of it.
* What the operating system and the standard library decide (whether
  `cmd.Start` succeeds, whether the backend becomes reachable, what
  `net.ParseIP` and `strconv.Atoi` accept) is an argument of the embedded
  function.
-/

namespace Terminal

/-! ## Data model -/

/-- The record `ttydProcess`.  The field `cmd` is the identity of the
`*exec.Cmd` handle: two spawns never share it. -/
structure ttydProcess where
  cmd : Nat
  port : Int
  vmIP : String
  createdAt : Nat
  deriving DecidableEq

/-- The map `map[int]*ttydProcess`. -/
abbrev Sessions := List (Int × ttydProcess)

namespace Sessions

/-- The lookup `m.sessions[port]`. -/
def find (port : Int) : Sessions → Option ttydProcess
  | [] => none
  | (k, v) :: rest => if k = port then some v else find port rest

/-- The statement `delete(m.sessions, port)`. -/
def delete (port : Int) (s : Sessions) : Sessions :=
  s.filter (fun kv => decide (kv.1 ≠ port))

/-- The assignment `m.sessions[port] = proc`. -/
def insert (port : Int) (proc : ttydProcess) (s : Sessions) : Sessions :=
  (port, proc) :: delete port s

/-- The test `_, exists := m.sessions[port]`. -/
def exists_ (port : Int) (s : Sessions) : Bool :=
  (find port s).isSome

end Sessions

/-- The values of the Go type `int` on a 64-bit platform. -/
abbrev IsInt64 (x : Int) : Prop :=
  -9223372036854775808 ≤ x ∧ x < 9223372036854775808

/-- The `int` that 64-bit arithmetic yields where the exact result is `x`:
the value congruent to `x` modulo 2^64 between -2^63 and 2^63 - 1. -/
def wrap64 (x : Int) : Int :=
  (x + 9223372036854775808) % 18446744073709551616 - 9223372036854775808

/-- The struct `Manager`, without the mutex.  The field `isInt` records that
`portStart`, `portEnd` and `nextPort` are values of the type `int`. -/
structure Manager where
  sshKeyPath : String
  sshUser : String
  sessions : Sessions
  portStart : Int
  portEnd : Int
  nextPort : Int
  isInt : IsInt64 portStart ∧ IsInt64 portEnd ∧ IsInt64 nextPort
  deriving DecidableEq

/-- The constructor `NewManager`. -/
def NewManager (sshKeyPath sshUser : String) : Manager :=
  { sshKeyPath := sshKeyPath
    sshUser := sshUser
    sessions := []
    portStart := 10000
    portEnd := 20000
    nextPort := 10000
    isInt := by decide }

/-- The method `ActiveSessions`: `len(m.sessions)`. -/
def ActiveSessions (m : Manager) : Nat :=
  m.sessions.length

/-! ## Port allocator -/

/-- One pass through the body of the `for` loop of `allocatePort`, up to the
test of the registry: read the cursor, advance it, wrap it. Returns the
port read and the manager with the cursor moved. -/
def advance (m : Manager) : Int × Manager :=
  let port := m.nextPort
  let m1 : Manager :=
    { m with
      nextPort := wrap64 (m.nextPort + 1)
      isInt := ⟨m.isInt.1, m.isInt.2.1, by unfold wrap64; constructor <;> omega⟩ }
  let m2 : Manager :=
    if m1.nextPort ≥ m1.portEnd then
      { m1 with nextPort := m1.portStart, isInt := ⟨m1.isInt.1, m1.isInt.2.1, m1.isInt.1⟩ }
    else m1
  (port, m2)

/-- The `for` loop of `allocatePort` with `fuel` iterations left: `some port`
when an iteration returns from inside the loop, `none` when the loop runs
out. -/
def allocLoop : Nat → Manager → Option Int × Manager
  | 0, m => (none, m)
  | fuel + 1, m =>
    let (port, m2) := advance m
    if Sessions.exists_ port m2.sessions then allocLoop fuel m2 else (some port, m2)

/-- The method `allocatePort`: the loop runs as many times as the `int`
difference `m.portEnd-m.portStart` says (not at all when that is not
positive) and the fallback returns the cursor. -/
def allocatePort (m : Manager) : Int × Manager :=
  match allocLoop (wrap64 (m.portEnd - m.portStart)).toNat m with
  | (some port, m2) => (port, m2)
  | (none, m2) => (m2.nextPort, m2)

/-- A manager whose cursor stands on the last port of the range while that
port and the first one are registered. -/
def wrapManager : Manager :=
  { sshKeyPath := "key"
    sshUser := "user"
    sessions :=
      [(19999, { cmd := 0, port := 19999, vmIP := "203.0.113.5", createdAt := 0 }),
       (10000, { cmd := 1, port := 10000, vmIP := "203.0.113.6", createdAt := 1 })]
    portStart := 10000
    portEnd := 20000
    nextPort := 19999
    isInt := by decide }

/-- A manager whose range, from -2^62 to 2^62, is 2^63 ports wide, with the
cursor on port 0 and port 0 the only one registered. -/
def wideManager : Manager :=
  { sshKeyPath := "key"
    sshUser := "user"
    sessions := [(0, { cmd := 0, port := 0, vmIP := "203.0.113.5", createdAt := 0 })]
    portStart := -4611686018427387904
    portEnd := 4611686018427387904
    nextPort := 0
    isInt := by decide }

/-- A manager with a range of two ports, both registered. -/
def fullManager : Manager :=
  { sshKeyPath := "key"
    sshUser := "user"
    sessions :=
      [(5, { cmd := 0, port := 5, vmIP := "203.0.113.5", createdAt := 0 }),
       (6, { cmd := 1, port := 6, vmIP := "203.0.113.6", createdAt := 1 })]
    portStart := 5
    portEnd := 7
    nextPort := 6
    isInt := by decide }

/-! ## Process supervisor -/

/-- The manager together with what the supervisor has started: `reapers`
holds, for every spawned process whose `cmd.Wait` has not returned yet, the
process and the port captured by its reaper goroutine; `killed` holds the
processes that `Process.Kill` was called on; `nextCmd` is the identity the
next `exec.Command` call will get. -/
structure World where
  m : Manager
  reapers : List (Nat × Int)
  killed : List Nat
  nextCmd : Nat
  deriving DecidableEq

/-- The state of a freshly built server: `NewManager` and no process. -/
def World.init (sshKeyPath sshUser : String) : World :=
  { m := NewManager sshKeyPath sshUser, reapers := [], killed := [], nextCmd := 0 }

/-- The port a reaper goroutine captured, looked up by its process. -/
def reaperPort (cmd : Nat) : List (Nat × Int) → Option Int
  | [] => none
  | (c, p) :: rest => if c = cmd then some p else reaperPort cmd rest

/-- The method `spawnTTYD`.  `startOk` tells whether `cmd.Start()` succeeds
and `now` is the value of `time.Now()`.  On success the session is stored
under the allocated port and the reaper goroutine is started. -/
def spawnTTYD (vmIP : String) (startOk : Bool) (now : Nat) (w : World) :
    Except String Int × World :=
  let (port, m1) := allocatePort w.m
  let cmd := w.nextCmd
  if startOk then
    let proc : ttydProcess := { cmd := cmd, port := port, vmIP := vmIP, createdAt := now }
    let m2 := { m1 with sessions := Sessions.insert port proc m1.sessions }
    (Except.ok port,
      { m := m2, reapers := (cmd, port) :: w.reapers, killed := w.killed, nextCmd := cmd + 1 })
  else
    (Except.error "failed to start ttyd",
      { m := m1, reapers := w.reapers, killed := w.killed, nextCmd := cmd + 1 })

/-- The body of the reaper goroutine of process `cmd` after `cmd.Wait()` has
returned: `delete(m.sessions, port)` with the port it captured.  A process
that has no reaper waiting (never started, or already reaped) does nothing. -/
def reap (cmd : Nat) (w : World) : World :=
  match reaperPort cmd w.reapers with
  | none => w
  | some port =>
    { w with
      m := { w.m with sessions := Sessions.delete port w.m.sessions }
      reapers := w.reapers.filter (fun cp => decide (cp.1 ≠ cmd)) }

/-- The method `Cleanup`: `Kill` on the process of every registered session
(all of them were started, so `cmd.Process` is never nil). -/
def Cleanup (w : World) : World :=
  { w with killed := w.killed ++ w.m.sessions.map (fun kv => kv.2.cmd) }

/-- The method `waitForTTYD`.  `dials` lists the outcomes of the
`net.DialTimeout` calls the loop gets to make before its deadline of five
seconds passes (`true`: connected).  The result is `true` for `nil`, `false`
for the error. -/
def waitForTTYD : List Bool → Bool
  | [] => false
  | ok :: rest => if ok then true else waitForTTYD rest

/-! ## Runs of the manager and of the supervisor -/

/-- The three things that change a manager: a call of `allocatePort`, the
assignment `m.sessions[port] = proc`, and `delete(m.sessions, port)`. -/
inductive Op where
  | alloc
  | register (port : Int) (proc : ttydProcess)
  | remove (port : Int)
  deriving DecidableEq

/-- The manager after one operation. -/
def Op.apply (m : Manager) : Op → Manager
  | Op.alloc => (allocatePort m).2
  | Op.register port proc => { m with sessions := Sessions.insert port proc m.sessions }
  | Op.remove port => { m with sessions := Sessions.delete port m.sessions }

/-- The manager after a sequence of operations, first to last. -/
def runOps (ops : List Op) (m : Manager) : Manager :=
  ops.foldl Op.apply m

/-- The two things that happen to the supervisor: a call of `spawnTTYD`, and
the exit of a spawned process, which lets its reaper goroutine run. -/
inductive Event where
  | spawn (vmIP : String) (startOk : Bool) (now : Nat)
  | exit (cmd : Nat)
  deriving DecidableEq

/-- The state after one event. -/
def Event.apply (w : World) : Event → World
  | Event.spawn vmIP startOk now => (spawnTTYD vmIP startOk now w).2
  | Event.exit cmd => reap cmd w

/-- The state after a sequence of events, first to last. -/
def runEvents (evs : List Event) (w : World) : World :=
  evs.foldl Event.apply w

/-- The spawn repeated in the saturation run: the same address every time,
`cmd.Start` succeeding. -/
def spawnOk : Event :=
  Event.spawn "203.0.113.5" true 0

/-- The shape of the state after `k` successful spawns on a fresh server
while no process has exited: process numbers up to `k` are used, the cursor
is `k` places on (back at the start once the range is full), exactly the
first `k` ports of the range are registered, and the reaper of process 0
waits with port 10000. -/
def Filled (k : Nat) (w : World) : Prop :=
  w.nextCmd = k ∧ w.m.portStart = 10000 ∧ w.m.portEnd = 20000 ∧
  w.m.nextPort = (if k < 10000 then 10000 + (k : Int) else 10000) ∧
  (∀ p, Sessions.find p w.m.sessions ≠ none ↔ (10000 ≤ p ∧ p < 10000 + (k : Int))) ∧
  (1 ≤ k → reaperPort 0 w.reapers = some 10000)

/-! ## HTTP handlers -/

/-- What a handler needs of `*http.Request`: the URL path, the raw query, the
value `r.URL.Query().Get("vmIP")` and the values `r.Header["Upgrade"]`. -/
structure Request where
  path : String
  rawQuery : String
  vmIP : String
  upgrade : List String
  deriving DecidableEq

/-- What a handler does with its `http.ResponseWriter`: `http.Error`,
`http.Redirect`, handing the request to the reverse proxy for the backend on
`port`, or handing it to `proxyWebSocket` with the target
`http://127.0.0.1:<port><path>`. -/
inductive Response where
  | error (body : String) (status : Nat)
  | redirect (location : String) (status : Nat)
  | reverseProxy (port : Int) (path : String) (rawQuery : String)
  | tunnel (port : Int) (path : String)
  deriving DecidableEq

/-- The standard-library functions the handlers call: `parseIP s` tells
whether `net.ParseIP(s)` is non-nil, `atoi` is `strconv.Atoi` with `none`
for an error. -/
structure Env where
  parseIP : String → Bool
  atoi : String → Option Int

/-- The method `HandleTerminal`.  `during` lists what other goroutines do
to the state, in order, between the return of `spawnTTYD` and the return of
`waitForTTYD`, which polls for up to five seconds without the mutex: reapers
of processes that exit, the spawned one included, and spawns of other
requests. -/
def HandleTerminal (env : Env) (r : Request) (startOk : Bool) (now : Nat)
    (dials : List Bool) (during : List Event) (w : World) : Response × World :=
  let vmIP := r.vmIP
  if vmIP = "" then
    (Response.error "vmIP query parameter required" 400, w)
  else if env.parseIP vmIP = false then
    (Response.error "invalid vmIP" 400, w)
  else
    match spawnTTYD vmIP startOk now w with
    | (Except.error _, w1) => (Response.error "failed to create terminal session" 500, w1)
    | (Except.ok port, w1) =>
      let w2 := runEvents during w1
      if waitForTTYD dials then
        (Response.redirect ("/s/" ++ toString port ++ "/") 302, w2)
      else
        (Response.error "terminal session not ready" 503, w2)

/-- The remainder of `s` after `pre`, when `s` starts with `pre`. -/
def dropPrefix? : List Char → List Char → Option (List Char)
  | [], s => some s
  | _ :: _, [] => none
  | p :: ps, c :: cs => if p = c then dropPrefix? ps cs else none

/-- The function `strings.TrimPrefix`. -/
def TrimPrefix (s pre : String) : String :=
  match dropPrefix? pre.data s.data with
  | some rest => String.mk rest
  | none => s

/-- The text before the first `sep`, or the whole text when there is none. -/
def takeUntil (sep : Char) : List Char → List Char
  | [] => []
  | c :: cs => if c = sep then [] else c :: takeUntil sep cs

/-- The text after the first `sep`, when there is one. -/
def dropUntil (sep : Char) : List Char → Option (List Char)
  | [] => none
  | c :: cs => if c = sep then some cs else dropUntil sep cs

/-- The call `strings.SplitN(s, sep, 2)` for a separator of one byte: the
text before the first separator and the text after it, or `s` alone. -/
def SplitN2 (s : String) (sep : Char) : List String :=
  match dropUntil sep s.data with
  | some rest => [String.mk (takeUntil sep s.data), String.mk rest]
  | none => [s]

/-- The function `isWebSocketUpgrade`. -/
def isWebSocketUpgrade (r : Request) : Bool :=
  r.upgrade.any (fun v => decide (v = "websocket"))

/-- The method `HandleSession`. -/
def HandleSession (env : Env) (r : Request) (m : Manager) : Response :=
  match SplitN2 (TrimPrefix r.path "/s/") '/' with
  | [] => Response.error "invalid session path" 400
  | seg :: _ =>
    match env.atoi seg with
    | none => Response.error "invalid session id" 400
    | some port =>
      if Sessions.exists_ port m.sessions then
        if isWebSocketUpgrade r then Response.tunnel port r.path
        else Response.reverseProxy port r.path r.rawQuery
      else Response.error "session not found" 404

/-- The first path segment after the `/s/` prefix: `parts[0]`. -/
def sessionSegment (path : String) : String :=
  (SplitN2 (TrimPrefix path "/s/") '/').headD ""

/-! ## Route table of the server -/

/-- The handlers a request can end in: the three that `Server.routes`
registers, the session router of the manager, and the `404` handler of
`http.ServeMux` for a path that no pattern matches. -/
inductive Handler where
  | handleHealth
  | HandleTerminal
  | metrics
  | HandleSession
  | NotFound
  deriving DecidableEq

/-- The patterns registered by `Server.routes`, in its order. -/
def routes : List (String × Handler) :=
  [("/health", Handler.handleHealth),
   ("/terminal", Handler.HandleTerminal),
   ("/metrics", Handler.metrics)]

/-- Path matching of `http.ServeMux`: a pattern that ends in a slash matches
every path it is a prefix of, any other pattern matches only itself. -/
def patternMatches (pattern path : String) : Bool :=
  if pattern.data.getLast? = some '/' then pattern.data.isPrefixOf path.data
  else decide (pattern = path)

/-- The longest matching pattern seen so far, with its handler. -/
def pickRoute (path : String) (best : Option (String × Handler))
    (entry : String × Handler) : Option (String × Handler) :=
  if patternMatches entry.1 path then
    match best with
    | none => some entry
    | some b => if b.1.length < entry.1.length then some entry else some b
  else best

/-- The handler `http.ServeMux` selects for a path: the one of the longest
matching pattern, `NotFound` when there is none. -/
def dispatch (table : List (String × Handler)) (path : String) : Handler :=
  match table.foldl (pickRoute path) none with
  | some entry => entry.2
  | none => Handler.NotFound

/-! ## Tunnel relay: the bytes -/

/-- One byte. -/
abbrev Byte := Fin 256

/-- The writing side of a `net.Conn`: the bytes it has accepted so far and
how many more it accepts before it breaks (`none`: it never breaks).  A
broken or closed connection accepts nothing more. -/
structure Conn where
  written : List Byte
  room : Option Nat
  deriving DecidableEq

/-- The method `Write` of a connection: the bytes that fit are appended; the
result tells how many were written and whether there is an error, which is
the case exactly when not all of them fit. -/
def Conn.Write (c : Conn) (p : List Byte) : (Nat × Bool) × Conn :=
  match c.room with
  | none => ((p.length, false), { c with written := c.written ++ p })
  | some k =>
    if p.length ≤ k then
      ((p.length, false), { written := c.written ++ p, room := some (k - p.length) })
    else
      ((k, true), { written := c.written ++ p.take k, room := some 0 })

/-- The reading half of the `*bufio.ReadWriter` returned by `Hijack`: the
bytes read from the client connection and not consumed yet, `buf[r:w]`. -/
structure BufReader where
  pending : List Byte
  deriving DecidableEq

/-- The method `Buffered`. -/
def BufReader.Buffered (b : BufReader) : Nat :=
  b.pending.length

/-- The method `Read` into a slice of length `n` while bytes are buffered:
it copies `min n Buffered` bytes out of the buffer and consumes them. -/
def BufReader.Read (b : BufReader) (n : Nat) : List Byte × BufReader :=
  (b.pending.take n, { pending := b.pending.drop n })

/-- The function `io.Copy(dst, src)`.  `chunks` lists what the successive
`Read` calls on `src` return until its end of stream or error.  Every chunk
is written to `dst`; the loop stops at the first write that has an error or
is short. -/
def ioCopy : List (List Byte) → Conn → Conn
  | [], dst => dst
  | chunk :: rest, dst =>
    match dst.Write chunk with
    | ((nw, err), dst1) => if err || decide (nw ≠ chunk.length) then dst1 else ioCopy rest dst1

/-- How a call of `proxyWebSocket` ends: with `http.Error`, with both
connections closed after the upgrade request could not be written, or after
the relay; the latter two carry the two connections as they were left. -/
inductive TunnelResult where
  | httpError (body : String) (status : Nat)
  | aborted (dest : Conn)
  | relayed (dest client : Conn)
  deriving DecidableEq

/-- The method `proxyWebSocket`, as far as bytes go.  `dialOk`, `isHijacker`
and `hijackOk` tell whether `net.DialTimeout`, the type assertion to
`http.Hijacker` and `Hijack` succeed; `reqBytes` is what `proxyReq.Write`
serializes; `clientBuf` is the buffered reader `Hijack` returns;
`fromClient` and `fromBackend` are what the two `io.Copy` calls read. -/
def proxyWebSocket (dialOk isHijacker hijackOk : Bool) (reqBytes : List Byte)
    (clientBuf : BufReader) (fromClient fromBackend : List (List Byte))
    (dest client : Conn) : TunnelResult :=
  if !dialOk then TunnelResult.httpError "could not connect to terminal" 502
  else if !isHijacker then TunnelResult.httpError "hijacking not supported" 500
  else if !hijackOk then TunnelResult.httpError "hijack failed" 500
  else
    match dest.Write reqBytes with
    | ((_, true), dest1) => TunnelResult.aborted dest1
    | ((_, false), dest1) =>
      let dest2 :=
        if clientBuf.Buffered > 0 then
          let buffered := (clientBuf.Read clientBuf.Buffered).1
          (dest1.Write buffered).2
        else dest1
      TunnelResult.relayed (ioCopy fromClient dest2) (ioCopy fromBackend client)

/-- The bytes the backend connection has accepted when `proxyWebSocket` is
over; nothing is written to it before the dial succeeds. -/
def TunnelResult.toBackend (dest : Conn) : TunnelResult → List Byte
  | TunnelResult.httpError _ _ => dest.written
  | TunnelResult.aborted d => d.written
  | TunnelResult.relayed d _ => d.written

/-! ## Tunnel relay: the two goroutines and the channel `done` -/

/-- Where a copying goroutine is: inside `io.Copy`, at the send
`done <- struct{}{}`, or past it. -/
inductive TaskPc where
  | copying
  | sending
  | finished
  deriving DecidableEq

/-- Where `proxyWebSocket` is after starting the goroutines: at the receive
`<-done`, before `clientConn.Close()`, before `destConn.Close()`, or
returned. -/
inductive MainPc where
  | receiving
  | closingClient
  | closingDest
  | returned
  deriving DecidableEq

/-- The state of one tunnel from line 272 on: the three program counters and
whether each connection is still open.  `up` is the goroutine copying
client to backend, `down` the one copying backend to client. -/
structure Relay where
  main : MainPc
  up : TaskPc
  down : TaskPc
  clientOpen : Bool
  destOpen : Bool
  deriving DecidableEq

/-- The state right after both `go` statements. -/
def Relay.start : Relay :=
  { main := MainPc.receiving, up := TaskPc.copying, down := TaskPc.copying,
    clientOpen := true, destOpen := true }

/-- What the scheduler can let happen next: the `io.Copy` of a goroutine
returns, a goroutine hands its value over the unbuffered channel to the
receive of `proxyWebSocket`, or `proxyWebSocket` runs its next statement. -/
inductive RelayEv where
  | upCopyEnds
  | downCopyEnds
  | upHandoff
  | downHandoff
  | mainNext
  deriving DecidableEq

/-- One step of the tunnel; `none` when the event cannot happen in the
state.  A send on the unbuffered channel `done` completes only together with
a receive, and `proxyWebSocket` receives only at `<-done`. -/
def Relay.step (s : Relay) : RelayEv → Option Relay
  | RelayEv.upCopyEnds =>
    if s.up = TaskPc.copying then some { s with up := TaskPc.sending } else none
  | RelayEv.downCopyEnds =>
    if s.down = TaskPc.copying then some { s with down := TaskPc.sending } else none
  | RelayEv.upHandoff =>
    if s.up = TaskPc.sending ∧ s.main = MainPc.receiving then
      some { s with up := TaskPc.finished, main := MainPc.closingClient }
    else none
  | RelayEv.downHandoff =>
    if s.down = TaskPc.sending ∧ s.main = MainPc.receiving then
      some { s with down := TaskPc.finished, main := MainPc.closingClient }
    else none
  | RelayEv.mainNext =>
    match s.main with
    | MainPc.closingClient => some { s with clientOpen := false, main := MainPc.closingDest }
    | MainPc.closingDest => some { s with destOpen := false, main := MainPc.returned }
    | _ => none

/-- The state after a schedule; an event that cannot happen is skipped. -/
def Relay.run (sched : List RelayEv) (s : Relay) : Relay :=
  sched.foldl (fun st ev => (st.step ev).getD st) s

/-- How many of the two goroutines have got past their send on `done`. -/
def Relay.observed (s : Relay) : Nat :=
  (if s.up = TaskPc.finished then 1 else 0) + (if s.down = TaskPc.finished then 1 else 0)

/-- A goroutine is at its send on `done` and `proxyWebSocket` has returned,
so nobody will ever receive. -/
def Relay.leaked (s : Relay) : Bool :=
  decide (s.main = MainPc.returned) &&
    (decide (s.up = TaskPc.sending) || decide (s.down = TaskPc.sending))

/-! ## A concrete environment for worked examples -/

/-- The value of a decimal digit. -/
def digitVal (c : Char) : Option Nat :=
  if 48 ≤ c.toNat ∧ c.toNat ≤ 57 then some (c.toNat - 48) else none

/-- The number written by a text of decimal digits, continuing from `acc`. -/
def parseDigits : List Char → Nat → Option Nat
  | [], acc => some acc
  | c :: cs, acc =>
    match digitVal c with
    | some d => parseDigits cs (acc * 10 + d)
    | none => none

/-- The function `strconv.Atoi` on a 64-bit platform: an optional sign, at
least one decimal digit and nothing else, with a value that fits `int`. -/
def Atoi (s : String) : Option Int :=
  match s.data with
  | [] => none
  | '-' :: ds =>
    if ds = [] then none
    else (parseDigits ds 0).bind (fun n => if n ≤ 2 ^ 63 then some (-(n : Int)) else none)
  | '+' :: ds =>
    if ds = [] then none
    else (parseDigits ds 0).bind (fun n => if n < 2 ^ 63 then some (n : Int) else none)
  | ds => (parseDigits ds 0).bind (fun n => if n < 2 ^ 63 then some (n : Int) else none)

/-- The fields of a dotted text, splitting at every dot. -/
def dotFields : List Char → List (List Char)
  | [] => [[]]
  | c :: cs =>
    match dotFields cs with
    | [] => [[]]
    | f :: fs => if c = '.' then [] :: f :: fs else (c :: f) :: fs

/-- One field of a dotted-decimal address: one to three digits, no leading
zero unless it is the only digit, value at most 255. -/
def isOctet (f : List Char) : Bool :=
  match parseDigits f 0 with
  | some n =>
    decide (1 ≤ f.length ∧ f.length ≤ 3 ∧ n ≤ 255) && (decide (f.length = 1) || f.head? != some '0')
  | none => false

/-- The dotted-decimal IPv4 texts that `net.ParseIP` accepts. -/
def isDottedQuad (s : String) : Bool :=
  let fs := dotFields s.data
  decide (fs.length = 4) && fs.all isOctet

/-- An environment for the worked examples: `Atoi` as above, and a
`ParseIP` that knows the dotted-decimal form only. -/
def exampleEnv : Env :=
  { parseIP := isDottedQuad, atoi := Atoi }

/-! ## Lemmas on the membership test -/

theorem Sessions.exists_eq_false_iff (port : Int) (s : Sessions) :
    Sessions.exists_ port s = false ↔ Sessions.find port s = none := by
  unfold Sessions.exists_
  cases Sessions.find port s <;> simp

theorem Sessions.exists_eq_true_iff (port : Int) (s : Sessions) :
    Sessions.exists_ port s = true ↔ Sessions.find port s ≠ none := by
  unfold Sessions.exists_
  cases Sessions.find port s <;> simp

/-! ## Lemmas on the allocator -/

theorem wrap64_of_isInt (x : Int) (h : IsInt64 x) : wrap64 x = x := by
  obtain ⟨h1, h2⟩ := h
  unfold wrap64
  omega

/-- Two managers with the same fields are the same manager. -/
theorem Manager.eq_of_fields (a b : Manager) (h1 : a.sshKeyPath = b.sshKeyPath)
    (h2 : a.sshUser = b.sshUser) (h3 : a.sessions = b.sessions)
    (h4 : a.portStart = b.portStart) (h5 : a.portEnd = b.portEnd)
    (h6 : a.nextPort = b.nextPort) : a = b := by
  cases a
  cases b
  simp only at h1 h2 h3 h4 h5 h6
  subst h1 h2 h3 h4 h5 h6
  rfl

theorem advance_fst (m : Manager) : (advance m).1 = m.nextPort := rfl

/-- One pass through the loop body changes nothing but the cursor. -/
theorem advance_frame (m : Manager) :
    (advance m).2.sshKeyPath = m.sshKeyPath ∧ (advance m).2.sshUser = m.sshUser ∧
    (advance m).2.sessions = m.sessions ∧ (advance m).2.portStart = m.portStart ∧
    (advance m).2.portEnd = m.portEnd := by
  unfold advance
  simp only
  split_ifs <;> exact ⟨rfl, rfl, rfl, rfl, rfl⟩

theorem advance_nextPort (m : Manager) :
    (advance m).2.nextPort =
      if wrap64 (m.nextPort + 1) ≥ m.portEnd then m.portStart else wrap64 (m.nextPort + 1) := by
  unfold advance
  simp only
  split_ifs <;> rfl

/-- Below the end of the range the increment of the cursor does not wrap
round. -/
theorem advance_nextPort_of_lt (m : Manager) (h : m.nextPort < m.portEnd) :
    (advance m).2.nextPort =
      if m.nextPort + 1 ≥ m.portEnd then m.portStart else m.nextPort + 1 := by
  have hw : wrap64 (m.nextPort + 1) = m.nextPort + 1 := by
    apply wrap64_of_isInt
    have h1 := m.isInt.2.1
    have h2 := m.isInt.2.2
    constructor <;> omega
  rw [advance_nextPort, hw]

theorem allocLoop_succ (fuel : Nat) (m : Manager) :
    allocLoop (fuel + 1) m =
      if Sessions.exists_ m.nextPort m.sessions then allocLoop fuel (advance m).2
      else (some m.nextPort, (advance m).2) := by
  rw [allocLoop]
  simp only [advance_fst, (advance_frame m).2.2.1]

/-- The loop changes nothing but the cursor. -/
theorem allocLoop_frame (fuel : Nat) : ∀ m : Manager,
    (allocLoop fuel m).2.sshKeyPath = m.sshKeyPath ∧
    (allocLoop fuel m).2.sshUser = m.sshUser ∧
    (allocLoop fuel m).2.sessions = m.sessions ∧
    (allocLoop fuel m).2.portStart = m.portStart ∧
    (allocLoop fuel m).2.portEnd = m.portEnd := by
  induction fuel with
  | zero => intro m; exact ⟨rfl, rfl, rfl, rfl, rfl⟩
  | succ k ih =>
    intro m
    obtain ⟨a1, a2, a3, a4, a5⟩ := advance_frame m
    rw [allocLoop_succ]
    by_cases h : Sessions.exists_ m.nextPort m.sessions = true
    · rw [if_pos h]
      obtain ⟨i1, i2, i3, i4, i5⟩ := ih (advance m).2
      exact ⟨i1.trans a1, i2.trans a2, i3.trans a3, i4.trans a4, i5.trans a5⟩
    · rw [if_neg h]
      exact ⟨a1, a2, a3, a4, a5⟩

/-- A free port at cyclic distance less than `fuel` ahead of the cursor makes
the loop return from inside, with a free port. -/
theorem allocLoop_finds (fuel : Nat) : ∀ m : Manager,
    m.portStart ≤ m.nextPort → m.nextPort < m.portEnd →
    (∃ p, m.portStart ≤ p ∧ p < m.portEnd ∧ Sessions.exists_ p m.sessions = false ∧
      (if m.nextPort ≤ p then p - m.nextPort else p - m.nextPort + (m.portEnd - m.portStart))
        < (fuel : Int)) →
    ∃ q, (allocLoop fuel m).1 = some q ∧ Sessions.exists_ q m.sessions = false ∧
      m.portStart ≤ q ∧ q < m.portEnd := by
  induction fuel with
  | zero =>
    intro m hlo hhi ⟨p, hp1, hp2, _, hd⟩
    exfalso
    split_ifs at hd <;> simp at hd <;> omega
  | succ k ih =>
    intro m hlo hhi ⟨p, hp1, hp2, hfree, hd⟩
    rw [allocLoop_succ]
    by_cases h : Sessions.exists_ m.nextPort m.sessions = true
    · rw [if_pos h]
      have hne : p ≠ m.nextPort := by
        intro he
        rw [he, h] at hfree
        exact Bool.noConfusion hfree
      obtain ⟨_, _, a3, a4, a5⟩ := advance_frame m
      have key := ih (advance m).2
      rw [a3, a4, a5, advance_nextPort_of_lt m hhi] at key
      apply key
      · split_ifs <;> omega
      · split_ifs <;> omega
      · refine ⟨p, hp1, hp2, hfree, ?_⟩
        push_cast at hd
        split_ifs at hd ⊢ <;> omega
    · rw [if_neg h]
      exact ⟨m.nextPort, rfl, by simpa using h, hlo, hhi⟩

/-- With every port of the range registered the loop runs out, and `fuel`
steps move the cursor `fuel` places round the range. -/
theorem allocLoop_full (fuel : Nat) : ∀ m : Manager,
    m.portStart ≤ m.nextPort → m.nextPort < m.portEnd →
    (fuel : Int) ≤ m.portEnd - m.portStart →
    (∀ p, m.portStart ≤ p → p < m.portEnd → Sessions.exists_ p m.sessions = true) →
    (allocLoop fuel m).1 = none ∧
    (allocLoop fuel m).2.nextPort =
      (if m.nextPort + fuel < m.portEnd then m.nextPort + fuel
        else m.nextPort + fuel - (m.portEnd - m.portStart)) := by
  induction fuel with
  | zero =>
    intro m hlo hhi _ _
    simp [allocLoop, hhi]
  | succ k ih =>
    intro m hlo hhi hk hall
    rw [allocLoop_succ, if_pos (hall _ hlo hhi)]
    obtain ⟨_, _, a3, a4, a5⟩ := advance_frame m
    have key := ih (advance m).2
    rw [a3, a4, a5, advance_nextPort_of_lt m hhi] at key
    push_cast at hk
    obtain ⟨k1, k2⟩ := key (by split_ifs <;> omega) (by split_ifs <;> omega) (by omega) hall
    refine ⟨k1, ?_⟩
    rw [k2]
    push_cast
    split_ifs <;> omega

/-! ## Lemmas on the registry, the supervisor and the request path -/

theorem Sessions.delete_cons (port k : Int) (v : ttydProcess) (rest : Sessions) :
    Sessions.delete port ((k, v) :: rest) =
      if k = port then Sessions.delete port rest else (k, v) :: Sessions.delete port rest := by
  unfold Sessions.delete
  by_cases h : k = port <;> simp [List.filter_cons, h]

theorem Sessions.find_cons (port k : Int) (v : ttydProcess) (rest : Sessions) :
    Sessions.find port ((k, v) :: rest) =
      if k = port then some v else Sessions.find port rest := rfl

theorem Sessions.find_delete_self (port : Int) (s : Sessions) :
    Sessions.find port (Sessions.delete port s) = none := by
  induction s with
  | nil => rfl
  | cons kv rest ih =>
    obtain ⟨k, v⟩ := kv
    rw [Sessions.delete_cons]
    by_cases h : k = port
    · rw [if_pos h]; exact ih
    · rw [if_neg h, Sessions.find_cons, if_neg h]; exact ih

theorem Sessions.find_delete_other (port other : Int) (s : Sessions) (h : other ≠ port) :
    Sessions.find other (Sessions.delete port s) = Sessions.find other s := by
  induction s with
  | nil => rfl
  | cons kv rest ih =>
    obtain ⟨k, v⟩ := kv
    rw [Sessions.delete_cons, Sessions.find_cons]
    by_cases hk : k = port
    · have hko : ¬ k = other := fun e => h (e ▸ hk)
      rw [if_pos hk, if_neg hko]; exact ih
    · rw [if_neg hk, Sessions.find_cons]
      by_cases ho : k = other
      · rw [if_pos ho, if_pos ho]
      · rw [if_neg ho, if_neg ho]; exact ih

theorem Sessions.find_insert_self (port : Int) (proc : ttydProcess) (s : Sessions) :
    Sessions.find port (Sessions.insert port proc s) = some proc := by
  simp [Sessions.insert, Sessions.find]

theorem Sessions.find_insert_other (port other : Int) (proc : ttydProcess) (s : Sessions)
    (h : other ≠ port) :
    Sessions.find other (Sessions.insert port proc s) = Sessions.find other s := by
  unfold Sessions.insert
  rw [Sessions.find_cons, if_neg (Ne.symm h)]
  exact Sessions.find_delete_other port other s h

theorem spawnTTYD_ok (vmIP : String) (now : Nat) (w : World) :
    spawnTTYD vmIP true now w =
      (Except.ok (allocatePort w.m).1,
        { m := { (allocatePort w.m).2 with
                  sessions := Sessions.insert (allocatePort w.m).1
                    { cmd := w.nextCmd, port := (allocatePort w.m).1, vmIP := vmIP,
                      createdAt := now } (allocatePort w.m).2.sessions }
          reapers := (w.nextCmd, (allocatePort w.m).1) :: w.reapers
          killed := w.killed
          nextCmd := w.nextCmd + 1 }) := rfl

theorem spawnTTYD_fail (vmIP : String) (now : Nat) (w : World) :
    spawnTTYD vmIP false now w =
      (Except.error "failed to start ttyd",
        { m := (allocatePort w.m).2, reapers := w.reapers, killed := w.killed,
          nextCmd := w.nextCmd + 1 }) := rfl

theorem sessionSegment_cons (path : String) :
    ∃ rest, SplitN2 (TrimPrefix path "/s/") '/' = sessionSegment path :: rest := by
  unfold sessionSegment SplitN2
  cases dropUntil '/' (TrimPrefix path "/s/").data with
  | none => exact ⟨[], rfl⟩
  | some r => exact ⟨[String.mk r], rfl⟩

/-! ## Lemmas on `allocatePort` -/

/-- The loop keeps the cursor inside the range and returns ports of the range
only. -/
theorem allocLoop_range (fuel : Nat) : ∀ m : Manager,
    m.portStart ≤ m.nextPort → m.nextPort < m.portEnd →
    (m.portStart ≤ (allocLoop fuel m).2.nextPort ∧ (allocLoop fuel m).2.nextPort < m.portEnd) ∧
    ∀ q, (allocLoop fuel m).1 = some q → m.portStart ≤ q ∧ q < m.portEnd := by
  induction fuel with
  | zero =>
    intro m hlo hhi
    exact ⟨⟨hlo, hhi⟩, fun q hq => Option.noConfusion hq⟩
  | succ k ih =>
    intro m hlo hhi
    have hnext := advance_nextPort_of_lt m hhi
    rw [allocLoop_succ]
    by_cases h : Sessions.exists_ m.nextPort m.sessions = true
    · rw [if_pos h]
      obtain ⟨_, _, _, a4, a5⟩ := advance_frame m
      have key := ih (advance m).2
      rw [a4, a5, hnext] at key
      exact key (by split_ifs <;> omega) (by split_ifs <;> omega)
    · rw [if_neg h]
      refine ⟨?_, ?_⟩
      · show m.portStart ≤ (advance m).2.nextPort ∧ (advance m).2.nextPort < m.portEnd
        rw [hnext]
        constructor <;> split_ifs <;> omega
      · intro q hq
        simp only [Option.some.injEq] at hq
        subst hq
        exact ⟨hlo, hhi⟩

theorem allocatePort_snd (m : Manager) :
    (allocatePort m).2 = (allocLoop (wrap64 (m.portEnd - m.portStart)).toNat m).2 := by
  unfold allocatePort
  rcases h : allocLoop (wrap64 (m.portEnd - m.portStart)).toNat m with ⟨r, m2⟩
  cases r <;> rfl

theorem allocatePort_fst (m : Manager) :
    (allocatePort m).1 =
      ((allocLoop (wrap64 (m.portEnd - m.portStart)).toNat m).1).getD
        (allocLoop (wrap64 (m.portEnd - m.portStart)).toNat m).2.nextPort := by
  unfold allocatePort
  rcases h : allocLoop (wrap64 (m.portEnd - m.portStart)).toNat m with ⟨r, m2⟩
  cases r <;> rfl

/-- A call of `allocatePort` changes nothing but the cursor. -/
theorem allocatePort_frame (m : Manager) :
    (allocatePort m).2.sshKeyPath = m.sshKeyPath ∧
    (allocatePort m).2.sshUser = m.sshUser ∧
    (allocatePort m).2.sessions = m.sessions ∧
    (allocatePort m).2.portStart = m.portStart ∧
    (allocatePort m).2.portEnd = m.portEnd := by
  rw [allocatePort_snd]
  exact allocLoop_frame _ m

/-- From a cursor inside the range, `allocatePort` returns a port of the range
and leaves the cursor inside the range. -/
theorem allocatePort_range (m : Manager)
    (hlo : m.portStart ≤ m.nextPort) (hhi : m.nextPort < m.portEnd) :
    (m.portStart ≤ (allocatePort m).1 ∧ (allocatePort m).1 < m.portEnd) ∧
    (m.portStart ≤ (allocatePort m).2.nextPort ∧ (allocatePort m).2.nextPort < m.portEnd) := by
  have h := allocLoop_range (wrap64 (m.portEnd - m.portStart)).toNat m hlo hhi
  rw [allocatePort_fst, allocatePort_snd]
  refine ⟨?_, h.1⟩
  cases hr : (allocLoop (wrap64 (m.portEnd - m.portStart)).toNat m).1 with
  | none => exact h.1
  | some q => exact h.2 q hr

/-- A range narrower than 2^63 has a width that is an `int`. -/
theorem wrap64_width (m : Manager) (hlo : m.portStart ≤ m.nextPort)
    (hhi : m.nextPort < m.portEnd) (hw : m.portEnd - m.portStart < 9223372036854775808) :
    ((wrap64 (m.portEnd - m.portStart)).toNat : Int) = m.portEnd - m.portStart := by
  rw [wrap64_of_isInt _ ⟨by omega, hw⟩, Int.toNat_of_nonneg (by omega)]

/-- With every port of the range registered, `allocatePort` falls through to
its last line with the cursor back where it started: after a full round when
the width of the range is an `int`, at once when the width wraps round to a
negative `int`. -/
theorem allocatePort_of_full (m : Manager)
    (hlo : m.portStart ≤ m.nextPort) (hhi : m.nextPort < m.portEnd)
    (hall : ∀ p, m.portStart ≤ p → p < m.portEnd → Sessions.find p m.sessions ≠ none) :
    allocatePort m = (m.nextPort, m) := by
  have hcur : (allocLoop (wrap64 (m.portEnd - m.portStart)).toNat m).1 = none ∧
      (allocLoop (wrap64 (m.portEnd - m.portStart)).toNat m).2.nextPort = m.nextPort := by
    by_cases hw : m.portEnd - m.portStart < 9223372036854775808
    · have hwidth := wrap64_width m hlo hhi hw
      obtain ⟨f1, f2⟩ := allocLoop_full (wrap64 (m.portEnd - m.portStart)).toNat m hlo hhi
        (le_of_eq hwidth)
        (fun p h1 h2 => (Sessions.exists_eq_true_iff p _).2 (hall p h1 h2))
      refine ⟨f1, ?_⟩
      rw [f2, hwidth]
      split_ifs <;> omega
    · have h1 := m.isInt.1
      have h2 := m.isInt.2.1
      have hz : (wrap64 (m.portEnd - m.portStart)).toNat = 0 := by
        unfold wrap64
        omega
      rw [hz]
      exact ⟨rfl, rfl⟩
  obtain ⟨f1, f2, f3, f4, f5⟩ := allocatePort_frame m
  refine Prod.ext ?_ (Manager.eq_of_fields _ _ f1 f2 f3 f4 f5 ?_)
  · rw [allocatePort_fst, hcur.1]
    exact hcur.2
  · rw [allocatePort_snd]
    exact hcur.2

/-- With the port under the cursor free and a width that is an `int`,
`allocatePort` returns that port from the first iteration and moves the
cursor one place. -/
theorem allocatePort_of_free (m : Manager)
    (hlo : m.portStart ≤ m.nextPort) (hhi : m.nextPort < m.portEnd)
    (hw : m.portEnd - m.portStart < 9223372036854775808)
    (hfree : Sessions.find m.nextPort m.sessions = none) :
    (allocatePort m).1 = m.nextPort ∧
    (allocatePort m).2.nextPort =
      (if m.nextPort + 1 ≥ m.portEnd then m.portStart else m.nextPort + 1) := by
  have hwidth := wrap64_width m hlo hhi hw
  obtain ⟨n, hn⟩ : ∃ n, (wrap64 (m.portEnd - m.portStart)).toNat = n + 1 :=
    ⟨(wrap64 (m.portEnd - m.portStart)).toNat - 1, by omega⟩
  have hloop : allocLoop (n + 1) m = (some m.nextPort, (advance m).2) := by
    rw [allocLoop_succ, if_neg (by
      rw [(Sessions.exists_eq_false_iff _ _).2 hfree]; exact Bool.noConfusion)]
  rw [allocatePort_fst, allocatePort_snd, hn, hloop]
  exact ⟨rfl, advance_nextPort_of_lt m hhi⟩

/-- Every operation keeps the range fields and keeps the cursor inside. -/
theorem Op.apply_inv (m : Manager) (op : Op)
    (hlo : m.portStart ≤ m.nextPort) (hhi : m.nextPort < m.portEnd) :
    (Op.apply m op).portStart = m.portStart ∧ (Op.apply m op).portEnd = m.portEnd ∧
    m.portStart ≤ (Op.apply m op).nextPort ∧ (Op.apply m op).nextPort < m.portEnd := by
  cases op with
  | alloc =>
    have hr := (allocatePort_range m hlo hhi).2
    obtain ⟨_, _, _, f4, f5⟩ := allocatePort_frame m
    exact ⟨f4, f5, hr.1, hr.2⟩
  | register port proc => exact ⟨rfl, rfl, hlo, hhi⟩
  | remove port => exact ⟨rfl, rfl, hlo, hhi⟩

theorem runOps_inv (ops : List Op) : ∀ m : Manager,
    m.portStart ≤ m.nextPort → m.nextPort < m.portEnd →
    (runOps ops m).portStart = m.portStart ∧ (runOps ops m).portEnd = m.portEnd ∧
    m.portStart ≤ (runOps ops m).nextPort ∧ (runOps ops m).nextPort < m.portEnd := by
  induction ops with
  | nil => intro m hlo hhi; exact ⟨rfl, rfl, hlo, hhi⟩
  | cons op rest ih =>
    intro m hlo hhi
    obtain ⟨h1, h2, h3, h4⟩ := Op.apply_inv m op hlo hhi
    have := ih (Op.apply m op) (by rw [h1]; exact h3) (by rw [h2]; exact h4)
    rw [h1, h2] at this
    exact this

/-! ## Theorems on the allocator -/

/-- Counterexample to C1: the range from -2^62 to 2^62 holds the cursor 0,
port 0 is registered and port 1 is free, but the width 2^63 of the range is
not an `int`: the difference `m.portEnd-m.portStart` wraps round to -2^63,
the loop does not run, and the fallback returns the registered port 0. -/
theorem allocatePort_wide_range_returns_registered :
    wideManager.portStart ≤ wideManager.nextPort ∧
    wideManager.nextPort < wideManager.portEnd ∧
    (∃ p, wideManager.portStart ≤ p ∧ p < wideManager.portEnd ∧
      Sessions.find p wideManager.sessions = none) ∧
    wrap64 (wideManager.portEnd - wideManager.portStart) = -9223372036854775808 ∧
    (allocatePort wideManager).1 = 0 ∧
    Sessions.find (allocatePort wideManager).1 wideManager.sessions ≠ none :=
  ⟨by decide, by decide, ⟨1, by decide, by decide, by decide⟩, by decide, by decide, by decide⟩

/-- Claim C1, amended: from a cursor inside a range whose width
`portEnd - portStart` is an `int` (less than 2^63) and with at least one
port of the range absent from the registry, `allocatePort` leaves the
registry as it is and returns a port that is not a key of it. -/
theorem allocatePort_returns_free_port (m : Manager)
    (hlo : m.portStart ≤ m.nextPort) (hhi : m.nextPort < m.portEnd)
    (hw : m.portEnd - m.portStart < 9223372036854775808)
    (hfree : ∃ p, m.portStart ≤ p ∧ p < m.portEnd ∧ Sessions.find p m.sessions = none) :
    (allocatePort m).2.sessions = m.sessions ∧
      Sessions.find (allocatePort m).1 m.sessions = none := by
  refine ⟨(allocatePort_frame m).2.2.1, ?_⟩
  obtain ⟨p, hp1, hp2, hp3⟩ := hfree
  have hfind := allocLoop_finds (wrap64 (m.portEnd - m.portStart)).toNat m hlo hhi
    ⟨p, hp1, hp2, (Sessions.exists_eq_false_iff p _).2 hp3, by
      rw [wrap64_width m hlo hhi hw]
      split_ifs <;> omega⟩
  obtain ⟨q, hq, hqfree, _, _⟩ := hfind
  rw [allocatePort_fst, hq]
  exact (Sessions.exists_eq_false_iff q _).1 hqfree

/-- Witness of the amended C1: the cursor is at the last port of the range
[10000, 20000), that port and the first one are registered; the scan wraps
and returns 10001. -/
theorem allocatePort_returns_free_port_witness :
    Sessions.find (allocatePort wrapManager).1 wrapManager.sessions = none ∧
      (allocatePort wrapManager).1 = 10001 :=
  ⟨(allocatePort_returns_free_port wrapManager (by decide) (by decide) (by decide)
      ⟨10001, by decide, by decide, by decide⟩).2, by decide⟩

/-- Claim C9: from a cursor inside the range and with every port of the range
registered, `allocatePort` returns the value the cursor had on entry and
leaves the manager, cursor included, as it was; the port returned is in
range and registered. -/
theorem allocatePort_exhausted (m : Manager)
    (hlo : m.portStart ≤ m.nextPort) (hhi : m.nextPort < m.portEnd)
    (hall : ∀ p, m.portStart ≤ p → p < m.portEnd → Sessions.find p m.sessions ≠ none) :
    allocatePort m = (m.nextPort, m) ∧
      (m.portStart ≤ (allocatePort m).1 ∧ (allocatePort m).1 < m.portEnd) ∧
      Sessions.find (allocatePort m).1 m.sessions ≠ none := by
  rw [allocatePort_of_full m hlo hhi hall]
  exact ⟨rfl, ⟨hlo, hhi⟩, hall _ hlo hhi⟩

/-- Witness of C9: a range of two ports, both registered, cursor on the
second. -/
theorem allocatePort_exhausted_witness :
    allocatePort fullManager = (6, fullManager) :=
  (allocatePort_exhausted fullManager (by decide) (by decide) (by
    intro p h1 h2
    have hp : p = 5 ∨ p = 6 := by
      have h1' : (5 : Int) ≤ p := h1
      have h2' : p < 7 := h2
      omega
    rcases hp with rfl | rfl <;> decide)).1

theorem runOps_append (ops more : List Op) (m : Manager) :
    runOps (ops ++ more) m = runOps more (runOps ops m) := by
  unfold runOps
  rw [List.foldl_append]

/-- In a reachable manager state the range is [10000, 20000), the cursor is
inside it and so is the port `allocatePort` returns. -/
theorem runOps_in_range (sshKeyPath sshUser : String) (ops : List Op) :
    (runOps ops (NewManager sshKeyPath sshUser)).portStart = 10000 ∧
    (runOps ops (NewManager sshKeyPath sshUser)).portEnd = 20000 ∧
    10000 ≤ (runOps ops (NewManager sshKeyPath sshUser)).nextPort ∧
    (runOps ops (NewManager sshKeyPath sshUser)).nextPort < 20000 ∧
    10000 ≤ (allocatePort (runOps ops (NewManager sshKeyPath sshUser))).1 ∧
    (allocatePort (runOps ops (NewManager sshKeyPath sshUser))).1 < 20000 := by
  have hinit1 : (NewManager sshKeyPath sshUser).portStart ≤ (NewManager sshKeyPath sshUser).nextPort :=
    show (10000 : Int) ≤ 10000 by decide
  have hinit2 : (NewManager sshKeyPath sshUser).nextPort < (NewManager sshKeyPath sshUser).portEnd :=
    show (10000 : Int) < 20000 by decide
  obtain ⟨h1, h2, h3, h4⟩ := runOps_inv ops (NewManager sshKeyPath sshUser) hinit1 hinit2
  have h1' : (runOps ops (NewManager sshKeyPath sshUser)).portStart = 10000 := h1
  have h2' : (runOps ops (NewManager sshKeyPath sshUser)).portEnd = 20000 := h2
  have h3' : (10000 : Int) ≤ (runOps ops (NewManager sshKeyPath sshUser)).nextPort := h3
  have h4' : (runOps ops (NewManager sshKeyPath sshUser)).nextPort < 20000 := h4
  have hr := (allocatePort_range (runOps ops (NewManager sshKeyPath sshUser))
    (by rw [h1']; exact h3') (by rw [h2']; exact h4')).1
  rw [h1', h2'] at hr
  exact ⟨h1', h2', h3', h4', hr.1, hr.2⟩

/-- The manager of a supervisor run is a manager run: a spawn is an
`allocatePort` followed, when the start succeeds, by a registration, and the
exit of a process is a removal. -/
theorem runEvents_manager (evs : List Event) : ∀ (w : World) (m0 : Manager) (ops0 : List Op),
    w.m = runOps ops0 m0 → ∃ ops, (runEvents evs w).m = runOps ops m0 := by
  induction evs with
  | nil => intro w m0 ops0 h; exact ⟨ops0, h⟩
  | cons ev rest ih =>
    intro w m0 ops0 h
    cases ev with
    | spawn vmIP startOk now =>
      cases startOk with
      | true =>
        refine ih (Event.apply w (Event.spawn vmIP true now)) m0
          (ops0 ++ [Op.alloc, Op.register (allocatePort w.m).1
            { cmd := w.nextCmd, port := (allocatePort w.m).1, vmIP := vmIP, createdAt := now }])
          ?_
        rw [runOps_append, ← h]
        rfl
      | false =>
        refine ih (Event.apply w (Event.spawn vmIP false now)) m0 (ops0 ++ [Op.alloc]) ?_
        rw [runOps_append, ← h]
        rfl
    | exit cmd =>
      cases hr : reaperPort cmd w.reapers with
      | none =>
        refine ih (Event.apply w (Event.exit cmd)) m0 ops0 ?_
        show (reap cmd w).m = _
        unfold reap
        rw [hr]
        exact h
      | some port =>
        refine ih (Event.apply w (Event.exit cmd)) m0 (ops0 ++ [Op.remove port]) ?_
        rw [runOps_append, ← h]
        show (reap cmd w).m = _
        unfold reap
        rw [hr]
        rfl

theorem HandleTerminal_redirect (env : Env) (r : Request) (startOk : Bool) (now : Nat)
    (dials : List Bool) (during : List Event) (w : World) (location : String) (status : Nat)
    (h : (HandleTerminal env r startOk now dials during w).1
      = Response.redirect location status) :
    location = "/s/" ++ toString (allocatePort w.m).1 ++ "/" := by
  unfold HandleTerminal at h
  by_cases h1 : r.vmIP = ""
  · simp [h1] at h
  · by_cases h2 : env.parseIP r.vmIP = false
    · simp [h1, h2] at h
    · cases startOk with
      | false => simp [h1, h2, spawnTTYD_fail] at h
      | true =>
        by_cases h3 : waitForTTYD dials = true
        · simp [h1, h2, h3, spawnTTYD_ok] at h
          exact h.1.symm
        · simp [h1, h2, h3, spawnTTYD_ok] at h

/-- Claim C5: in every manager state reached from `NewManager` by calls of
`allocatePort`, registrations and removals, the range is [10000, 20000), the
cursor is inside it, and the port `allocatePort` returns there is inside it;
hence after any spawns and exits on a fresh server the redirect of
`HandleTerminal` names a port of that range. -/
theorem reachable_cursor_and_ports_in_range (sshKeyPath sshUser : String) :
    (∀ ops : List Op,
      (runOps ops (NewManager sshKeyPath sshUser)).portStart = 10000 ∧
      (runOps ops (NewManager sshKeyPath sshUser)).portEnd = 20000 ∧
      (runOps ops (NewManager sshKeyPath sshUser)).portStart
        ≤ (runOps ops (NewManager sshKeyPath sshUser)).nextPort ∧
      (runOps ops (NewManager sshKeyPath sshUser)).nextPort
        < (runOps ops (NewManager sshKeyPath sshUser)).portEnd ∧
      10000 ≤ (allocatePort (runOps ops (NewManager sshKeyPath sshUser))).1 ∧
      (allocatePort (runOps ops (NewManager sshKeyPath sshUser))).1 < 20000) ∧
    (∀ (evs : List Event) (env : Env) (r : Request) (startOk : Bool) (now : Nat)
        (dials : List Bool) (during : List Event) (location : String) (status : Nat),
      (HandleTerminal env r startOk now dials during
          (runEvents evs (World.init sshKeyPath sshUser))).1
        = Response.redirect location status →
      ∃ port : Int, 10000 ≤ port ∧ port < 20000 ∧
        location = "/s/" ++ toString port ++ "/") := by
  constructor
  · intro ops
    obtain ⟨h1, h2, h3, h4, h5, h6⟩ := runOps_in_range sshKeyPath sshUser ops
    rw [h1, h2]
    exact ⟨rfl, rfl, h3, h4, h5, h6⟩
  · intro evs env r startOk now dials during location status h
    obtain ⟨ops, hops⟩ := runEvents_manager evs (World.init sshKeyPath sshUser)
      (NewManager sshKeyPath sshUser) [] rfl
    obtain ⟨_, _, _, _, h5, h6⟩ := runOps_in_range sshKeyPath sshUser ops
    refine ⟨(allocatePort (runEvents evs (World.init sshKeyPath sshUser)).m).1, ?_, ?_,
      HandleTerminal_redirect env r startOk now dials during _ location status h⟩
    · rw [hops]; exact h5
    · rw [hops]; exact h6

/-- Witness of C5: after one spawn on a fresh server, a successful
`HandleTerminal`, during whose probe the first process exits, redirects to
`/s/10001/`, and 10001 is in range. -/
theorem reachable_cursor_and_ports_in_range_witness :
    ∃ port : Int, 10000 ≤ port ∧ port < 20000 ∧
      "/s/10001/" = "/s/" ++ toString port ++ "/" :=
  (reachable_cursor_and_ports_in_range "key" "user").2 [spawnOk] exampleEnv
    { path := "/terminal", rawQuery := "vmIP=203.0.113.5", vmIP := "203.0.113.5",
      upgrade := [] }
    true 0 [false, true] [Event.exit 0] "/s/10001/" 302 (by decide)

/-- Neither a spawn nor the exit of a process kills anything. -/
theorem runEvents_killed (evs : List Event) : ∀ w : World,
    (runEvents evs w).killed = w.killed := by
  induction evs with
  | nil => intro w; rfl
  | cons ev rest ih =>
    intro w
    show (runEvents rest (Event.apply w ev)).killed = w.killed
    rw [ih]
    cases ev with
    | spawn vmIP startOk now => cases startOk <;> rfl
    | exit cmd =>
      show (reap cmd w).killed = w.killed
      unfold reap
      cases reaperPort cmd w.reapers <;> rfl

/-! ## Theorems on the handlers -/

/-- Claim C6: when the `vmIP` parameter is empty or `net.ParseIP` rejects it,
`HandleTerminal` answers 400 and returns the state it was given: the cursor,
the registry, its count and the set of spawned processes are untouched. -/
theorem HandleTerminal_invalid_vmIP (env : Env) (r : Request) (startOk : Bool) (now : Nat)
    (dials : List Bool) (during : List Event) (w : World)
    (h : r.vmIP = "" ∨ env.parseIP r.vmIP = false) :
    (∃ body, (HandleTerminal env r startOk now dials during w).1 = Response.error body 400) ∧
    (HandleTerminal env r startOk now dials during w).2 = w ∧
    (HandleTerminal env r startOk now dials during w).2.m.nextPort = w.m.nextPort ∧
    ActiveSessions (HandleTerminal env r startOk now dials during w).2.m
      = ActiveSessions w.m := by
  have key : (∃ body, (HandleTerminal env r startOk now dials during w).1
        = Response.error body 400) ∧
      (HandleTerminal env r startOk now dials during w).2 = w := by
    unfold HandleTerminal
    by_cases h1 : r.vmIP = ""
    · simp [h1]
    · rcases h with h | h
      · exact absurd h h1
      · simp [h1, h]
  exact ⟨key.1, key.2, by rw [key.2], by rw [key.2]⟩

/-- Witness of C6: the request of scenario B on a fresh server. -/
theorem HandleTerminal_invalid_vmIP_witness :
    (HandleTerminal exampleEnv
        { path := "/terminal", rawQuery := "vmIP=not-an-ip", vmIP := "not-an-ip", upgrade := [] }
        true 0 [true] [] (World.init "key" "user")).2 = World.init "key" "user" :=
  (HandleTerminal_invalid_vmIP exampleEnv
    { path := "/terminal", rawQuery := "vmIP=not-an-ip", vmIP := "not-an-ip", upgrade := [] }
    true 0 [true] [] (World.init "key" "user") (Or.inr (by decide))).2.1

/-- Claim C7: when the first segment after `/s/` is not an integer for
`strconv.Atoi`, `HandleSession` answers 400 "invalid session id"; when it is
an integer that is not a key of the registry, it answers 404 "session not
found"; either way the answer is an `http.Error`, neither the reverse proxy
nor the tunnel. -/
theorem HandleSession_rejects (env : Env) (r : Request) (m : Manager)
    (h : env.atoi (sessionSegment r.path) = none ∨
      ∃ port, env.atoi (sessionSegment r.path) = some port ∧
        Sessions.find port m.sessions = none) :
    HandleSession env r m =
        (if (env.atoi (sessionSegment r.path)).isNone
          then Response.error "invalid session id" 400
          else Response.error "session not found" 404) ∧
      (∀ port path query, HandleSession env r m ≠ Response.reverseProxy port path query) ∧
      (∀ port path, HandleSession env r m ≠ Response.tunnel port path) := by
  have key : HandleSession env r m =
      (if (env.atoi (sessionSegment r.path)).isNone
        then Response.error "invalid session id" 400
        else Response.error "session not found" 404) := by
    obtain ⟨rest, hsplit⟩ := sessionSegment_cons r.path
    unfold HandleSession
    rw [hsplit]
    rcases h with h | ⟨port, h, hfind⟩
    · simp [h]
    · simp [h, (Sessions.exists_eq_false_iff port m.sessions).2 hfind]
  refine ⟨key, ?_, ?_⟩
  · intro port path query
    rw [key]
    split_ifs <;> exact Response.noConfusion
  · intro port path
    rw [key]
    split_ifs <;> exact Response.noConfusion

/-- Witness of C7: the request of scenario D, `/s/999999/`, on a fresh
manager. -/
theorem HandleSession_rejects_witness :
    HandleSession exampleEnv
        { path := "/s/999999/", rawQuery := "", vmIP := "", upgrade := [] }
        (NewManager "key" "user") = Response.error "session not found" 404 :=
  (HandleSession_rejects exampleEnv
    { path := "/s/999999/", rawQuery := "", vmIP := "", upgrade := [] }
    (NewManager "key" "user") (Or.inr ⟨999999, by decide, by decide⟩)).1

/-- Counterexample to C3: on a fresh server, a valid address, a spawn that
succeeds, a backend that never accepts a connection, and no other goroutine
touching the state during the probe.  The answer is 503, and when the
handler returns port 10000 is still registered for the process it spawned,
the reaper of that process is still waiting, and no process has been
killed. -/
theorem not_ready_session_stays_registered :
    (HandleTerminal exampleEnv
        { path := "/terminal", rawQuery := "vmIP=203.0.113.5", vmIP := "203.0.113.5",
          upgrade := [] }
        true 7 [false, false, false] [] (World.init "key" "user")).1
      = Response.error "terminal session not ready" 503 ∧
    Sessions.find 10000 (HandleTerminal exampleEnv
        { path := "/terminal", rawQuery := "vmIP=203.0.113.5", vmIP := "203.0.113.5",
          upgrade := [] }
        true 7 [false, false, false] [] (World.init "key" "user")).2.m.sessions
      = some { cmd := 0, port := 10000, vmIP := "203.0.113.5", createdAt := 7 } ∧
    reaperPort 0 (HandleTerminal exampleEnv
        { path := "/terminal", rawQuery := "vmIP=203.0.113.5", vmIP := "203.0.113.5",
          upgrade := [] }
        true 7 [false, false, false] [] (World.init "key" "user")).2.reapers = some 10000 ∧
    (HandleTerminal exampleEnv
        { path := "/terminal", rawQuery := "vmIP=203.0.113.5", vmIP := "203.0.113.5",
          upgrade := [] }
        true 7 [false, false, false] [] (World.init "key" "user")).2.killed = [] := by
  decide

/-- Claim C3, amended: for a valid address, a spawn that succeeds and a
readiness probe that fails, `HandleTerminal` answers 503 and does no cleanup
of its own: the state it leaves is the state `spawnTTYD` left, changed only
by what other goroutines did during the probe, and no process has been
killed.  When no other goroutine touched the state during the probe, the
session is still registered under the allocated port and the reaper of the
spawned process is still waiting. -/
theorem HandleTerminal_not_ready (env : Env) (r : Request) (now : Nat) (dials : List Bool)
    (during : List Event) (w : World) (hne : r.vmIP ≠ "") (hip : env.parseIP r.vmIP = true)
    (hwait : waitForTTYD dials = false) :
    (HandleTerminal env r true now dials during w).1
      = Response.error "terminal session not ready" 503 ∧
    (HandleTerminal env r true now dials during w).2
      = runEvents during (spawnTTYD r.vmIP true now w).2 ∧
    (HandleTerminal env r true now dials during w).2.killed = w.killed ∧
    Sessions.find (allocatePort w.m).1 (HandleTerminal env r true now dials [] w).2.m.sessions
      = some { cmd := w.nextCmd, port := (allocatePort w.m).1, vmIP := r.vmIP,
               createdAt := now } ∧
    reaperPort w.nextCmd (HandleTerminal env r true now dials [] w).2.reapers
      = some (allocatePort w.m).1 := by
  have hres : ∀ evs : List Event, HandleTerminal env r true now dials evs w =
      (Response.error "terminal session not ready" 503,
        runEvents evs (spawnTTYD r.vmIP true now w).2) := by
    intro evs
    unfold HandleTerminal
    simp [hne, hip, hwait, spawnTTYD_ok]
  rw [hres during, hres []]
  refine ⟨rfl, rfl, ?_, ?_, ?_⟩
  · show (runEvents during (spawnTTYD r.vmIP true now w).2).killed = w.killed
    rw [runEvents_killed]
    rfl
  · show Sessions.find _ (spawnTTYD r.vmIP true now w).2.m.sessions = _
    rw [spawnTTYD_ok]
    exact Sessions.find_insert_self _ _ _
  · show reaperPort _ (spawnTTYD r.vmIP true now w).2.reapers = _
    rw [spawnTTYD_ok]
    simp [reaperPort]

/-- Witness of the amended C3: the spawned process exits while it is
probed, so its reaper has already removed the session when the 503 is
written. -/
theorem HandleTerminal_not_ready_witness :
    (HandleTerminal exampleEnv
        { path := "/terminal", rawQuery := "vmIP=203.0.113.5", vmIP := "203.0.113.5",
          upgrade := [] }
        true 7 [false, false, false] [Event.exit 0] (World.init "key" "user")).2
      = runEvents [Event.exit 0] (spawnTTYD "203.0.113.5" true 7 (World.init "key" "user")).2 :=
  (HandleTerminal_not_ready exampleEnv
    { path := "/terminal", rawQuery := "vmIP=203.0.113.5", vmIP := "203.0.113.5",
      upgrade := [] }
    7 [false, false, false] [Event.exit 0] (World.init "key" "user")
    (by decide) (by decide) (by decide)).2.1

/-! ## Theorems on the route table -/

theorem patternMatches_exact (pattern path : String)
    (h : pattern.data.getLast? ≠ some '/') :
    patternMatches pattern path = decide (pattern = path) := by
  unfold patternMatches
  rw [if_neg h]

theorem sessionPath_ne (port : Int) (pattern : String) (c : Char) (cs : List Char)
    (hp : pattern.data = '/' :: c :: cs) (hc : c ≠ 's') :
    pattern ≠ "/s/" ++ toString port ++ "/" := by
  intro h
  have hd := congrArg String.data h
  rw [hp] at hd
  simp only [String.data_append] at hd
  simp at hd
  exact hc hd.1

/-- Claim C4, on the code: no pattern of `Server.routes` matches a path
`/s/<port>/`, so `http.ServeMux` answers such a request with its own 404
handler; and no path at all is dispatched to `HandleSession`. -/
theorem routes_never_reach_HandleSession :
    (∀ port : Int, dispatch routes ("/s/" ++ toString port ++ "/") = Handler.NotFound) ∧
    (∀ path : String, dispatch routes path ≠ Handler.HandleSession) ∧
    dispatch routes "/s/10000/" = Handler.NotFound := by
  refine ⟨?_, ?_, by decide⟩
  · intro port
    have h1 : patternMatches "/health" ("/s/" ++ toString port ++ "/") = false := by
      rw [patternMatches_exact _ _ (by decide)]
      exact decide_eq_false (sessionPath_ne port "/health" 'h' _ rfl (by decide))
    have h2 : patternMatches "/terminal" ("/s/" ++ toString port ++ "/") = false := by
      rw [patternMatches_exact _ _ (by decide)]
      exact decide_eq_false (sessionPath_ne port "/terminal" 't' _ rfl (by decide))
    have h3 : patternMatches "/metrics" ("/s/" ++ toString port ++ "/") = false := by
      rw [patternMatches_exact _ _ (by decide)]
      exact decide_eq_false (sessionPath_ne port "/metrics" 'm' _ rfl (by decide))
    simp [dispatch, routes, pickRoute, h1, h2, h3]
  · intro path
    unfold dispatch routes
    simp only [List.foldl, pickRoute]
    cases patternMatches "/health" path <;> cases patternMatches "/terminal" path <;>
      cases patternMatches "/metrics" path <;> decide

/-! ## Theorems on the bytes of the tunnel -/

theorem ioCopy_unbounded (chunks : List (List Byte)) : ∀ written : List Byte,
    ioCopy chunks { written := written, room := none }
      = { written := written ++ chunks.flatten, room := none } := by
  induction chunks with
  | nil => intro written; simp [ioCopy]
  | cons chunk rest ih =>
    intro written
    simp [ioCopy, Conn.Write, ih, List.append_assoc]

theorem ioCopy_bounded (chunks : List (List Byte)) : ∀ (written : List Byte) (k : Nat),
    (ioCopy chunks { written := written, room := some k }).written
      = written ++ chunks.flatten.take k := by
  induction chunks with
  | nil => intro written k; simp [ioCopy]
  | cons chunk rest ih =>
    intro written k
    by_cases h : chunk.length ≤ k
    · simp only [ioCopy, Conn.Write, if_pos h]
      simp only [ne_eq, not_true_eq_false, decide_False, Bool.or_self, Bool.false_eq_true,
        if_false]
      rw [ih, List.flatten_cons, List.take_append_eq_append_take, List.take_of_length_le h,
        List.append_assoc]
    · simp only [ioCopy, Conn.Write, if_neg h]
      simp only [Bool.true_or, if_true]
      rw [List.flatten_cons, List.take_append_eq_append_take]
      have : k - chunk.length = 0 := by omega
      rw [this, List.take_zero, List.append_nil]

theorem Conn.Write_bounded (written p : List Byte) (k : Nat) :
    (Conn.Write { written := written, room := some k } p).2
      = { written := written ++ p.take k, room := some (k - p.length) } := by
  unfold Conn.Write
  by_cases h : p.length ≤ k
  · simp [h, List.take_of_length_le h]
  · have hz : k - p.length = 0 := by omega
    simp [h, hz]

theorem drain_unbounded (clientBuf : BufReader) (written : List Byte) :
    (if clientBuf.Buffered > 0 then
        (Conn.Write { written := written, room := none }
          (clientBuf.Read clientBuf.Buffered).1).2
      else { written := written, room := none })
      = { written := written ++ clientBuf.pending, room := none } := by
  unfold BufReader.Buffered BufReader.Read Conn.Write
  cases clientBuf.pending with
  | nil => simp
  | cons b bs => simp

theorem drain_bounded (clientBuf : BufReader) (written : List Byte) (k : Nat) :
    (if clientBuf.Buffered > 0 then
        (Conn.Write { written := written, room := some k }
          (clientBuf.Read clientBuf.Buffered).1).2
      else { written := written, room := some k })
      = { written := written ++ clientBuf.pending.take k,
          room := some (k - clientBuf.pending.length) } := by
  by_cases h : clientBuf.Buffered > 0
  · rw [if_pos h, Conn.Write_bounded]
    unfold BufReader.Buffered BufReader.Read
    simp
  · rw [if_neg h]
    unfold BufReader.Buffered at h
    have hnil : clientBuf.pending = [] := List.length_eq_zero.mp (by omega)
    simp [hnil]

theorem proxyWebSocket_unbounded (reqBytes : List Byte) (clientBuf : BufReader)
    (fromClient fromBackend : List (List Byte)) (client : Conn) :
    proxyWebSocket true true true reqBytes clientBuf fromClient fromBackend
        { written := [], room := none } client
      = TunnelResult.relayed
          { written := reqBytes ++ clientBuf.pending ++ fromClient.flatten, room := none }
          (ioCopy fromBackend client) := by
  have hw : Conn.Write { written := [], room := none } reqBytes
      = ((reqBytes.length, false), { written := reqBytes, room := none }) := by
    simp [Conn.Write]
  unfold proxyWebSocket
  simp only [Bool.not_true, Bool.false_eq_true, if_false]
  rw [hw]
  simp only []
  rw [drain_unbounded, ioCopy_unbounded]

theorem proxyWebSocket_bounded_fits (reqBytes : List Byte) (clientBuf : BufReader)
    (fromClient fromBackend : List (List Byte)) (client : Conn) (k : Nat)
    (hreq : reqBytes.length ≤ k) :
    proxyWebSocket true true true reqBytes clientBuf fromClient fromBackend
        { written := [], room := some k } client
      = TunnelResult.relayed
          (ioCopy fromClient
            { written := reqBytes ++ clientBuf.pending.take (k - reqBytes.length),
              room := some (k - reqBytes.length - clientBuf.pending.length) })
          (ioCopy fromBackend client) := by
  have hw : Conn.Write { written := [], room := some k } reqBytes
      = ((reqBytes.length, false),
          { written := reqBytes, room := some (k - reqBytes.length) }) := by
    simp [Conn.Write, hreq]
  unfold proxyWebSocket
  simp only [Bool.not_true, Bool.false_eq_true, if_false]
  rw [hw]
  simp only []
  rw [drain_bounded]

theorem proxyWebSocket_bounded_aborts (reqBytes : List Byte) (clientBuf : BufReader)
    (fromClient fromBackend : List (List Byte)) (client : Conn) (k : Nat)
    (hreq : ¬ reqBytes.length ≤ k) :
    proxyWebSocket true true true reqBytes clientBuf fromClient fromBackend
        { written := [], room := some k } client
      = TunnelResult.aborted { written := reqBytes.take k, room := some 0 } := by
  have hw : Conn.Write { written := [], room := some k } reqBytes
      = ((k, true), { written := reqBytes.take k, room := some 0 }) := by
    simp [Conn.Write, hreq]
  unfold proxyWebSocket
  simp only [Bool.not_true, Bool.false_eq_true, if_false]
  rw [hw]

/-- Claim C10: once the dial and the hijack have succeeded, the bytes the
backend connection accepts are the serialized upgrade request, then all the
bytes that were buffered from the client, then the chunks `io.Copy` reads
from the client, in that order; on a connection that breaks after `k` bytes
they are the first `k` bytes of that same sequence. -/
theorem proxyWebSocket_backend_bytes (reqBytes : List Byte) (clientBuf : BufReader)
    (fromClient fromBackend : List (List Byte)) (client : Conn) :
    (proxyWebSocket true true true reqBytes clientBuf fromClient fromBackend
        { written := [], room := none } client).toBackend { written := [], room := none }
      = reqBytes ++ clientBuf.pending ++ fromClient.flatten ∧
    ∀ k : Nat,
      (proxyWebSocket true true true reqBytes clientBuf fromClient fromBackend
          { written := [], room := some k } client).toBackend { written := [], room := some k }
        = (reqBytes ++ clientBuf.pending ++ fromClient.flatten).take k := by
  constructor
  · rw [proxyWebSocket_unbounded]
    rfl
  · intro k
    by_cases hreq : reqBytes.length ≤ k
    · rw [proxyWebSocket_bounded_fits _ _ _ _ _ _ hreq]
      show (ioCopy fromClient _).written = _
      rw [ioCopy_bounded, List.take_append_eq_append_take, List.take_append_eq_append_take,
        List.take_of_length_le hreq, List.length_append, Nat.sub_add_eq]
    · rw [proxyWebSocket_bounded_aborts _ _ _ _ _ _ hreq]
      show reqBytes.take k = _
      have hz : k - reqBytes.length = 0 := by omega
      rw [List.append_assoc, List.take_append_eq_append_take, hz, List.take_zero,
        List.append_nil]

/-! ## Theorems on the completion channel of the tunnel -/

/-- One step keeps the relay in step with the program counter of
`proxyWebSocket`: no goroutine is past its send before the receive and
exactly one after it, and the connections are closed by `proxyWebSocket`
only, client first. -/
theorem Relay.step_inv (s : Relay) (ev : RelayEv)
    (h : s.observed = (if s.main = MainPc.receiving then 0 else 1) ∧
      s.clientOpen = decide (s.main = MainPc.receiving ∨ s.main = MainPc.closingClient) ∧
      s.destOpen = decide (s.main ≠ MainPc.returned)) :
    ((s.step ev).getD s).observed
        = (if ((s.step ev).getD s).main = MainPc.receiving then 0 else 1) ∧
      ((s.step ev).getD s).clientOpen
        = decide (((s.step ev).getD s).main = MainPc.receiving ∨
            ((s.step ev).getD s).main = MainPc.closingClient) ∧
      ((s.step ev).getD s).destOpen = decide (((s.step ev).getD s).main ≠ MainPc.returned) := by
  obtain ⟨main, up, down, c, d⟩ := s
  cases main <;> cases up <;> cases down <;> cases ev <;>
    simp_all [Relay.step, Relay.observed]

theorem Relay.run_inv (sched : List RelayEv) : ∀ s : Relay,
    (s.observed = (if s.main = MainPc.receiving then 0 else 1) ∧
      s.clientOpen = decide (s.main = MainPc.receiving ∨ s.main = MainPc.closingClient) ∧
      s.destOpen = decide (s.main ≠ MainPc.returned)) →
    (Relay.run sched s).observed
        = (if (Relay.run sched s).main = MainPc.receiving then 0 else 1) ∧
      (Relay.run sched s).clientOpen
        = decide ((Relay.run sched s).main = MainPc.receiving ∨
            (Relay.run sched s).main = MainPc.closingClient) ∧
      (Relay.run sched s).destOpen = decide ((Relay.run sched s).main ≠ MainPc.returned) := by
  induction sched with
  | nil => intro s h; exact h
  | cons ev rest ih =>
    intro s h
    exact ih _ (Relay.step_inv s ev h)

theorem Relay.run_stuck (sched : List RelayEv) (s : Relay)
    (h : ∀ ev, s.step ev = none) : Relay.run sched s = s := by
  induction sched with
  | nil => rfl
  | cons ev rest ih =>
    unfold Relay.run at ih ⊢
    rw [List.foldl_cons, h ev]
    exact ih

/-- Counterexample to C8: the copy client to backend ends first and hands
over its signal; `proxyWebSocket` closes both connections and has returned
while the other goroutine is still inside `io.Copy`, so only one task was
observed.  When that goroutine then reaches its send on `done`, no step is
possible any more: it stays at the send. -/
theorem proxyWebSocket_returns_after_first_signal :
    Relay.run [RelayEv.upCopyEnds, RelayEv.upHandoff, RelayEv.mainNext, RelayEv.mainNext]
        Relay.start
      = { main := MainPc.returned, up := TaskPc.finished, down := TaskPc.copying,
          clientOpen := false, destOpen := false } ∧
    (Relay.run [RelayEv.upCopyEnds, RelayEv.upHandoff, RelayEv.mainNext, RelayEv.mainNext]
        Relay.start).observed = 1 ∧
    (Relay.run [RelayEv.upCopyEnds, RelayEv.upHandoff, RelayEv.mainNext, RelayEv.mainNext,
        RelayEv.downCopyEnds] Relay.start).leaked = true ∧
    (∀ sched : List RelayEv,
      Relay.run sched
          (Relay.run [RelayEv.upCopyEnds, RelayEv.upHandoff, RelayEv.mainNext,
            RelayEv.mainNext, RelayEv.downCopyEnds] Relay.start)
        = { main := MainPc.returned, up := TaskPc.finished, down := TaskPc.sending,
            clientOpen := false, destOpen := false }) := by
  refine ⟨by decide, by decide, by decide, ?_⟩
  intro sched
  exact Relay.run_stuck sched _ (by intro ev; cases ev <;> decide)

/-- What `proxyWebSocket` and the channel do in a state that satisfies the
invariant: a goroutine at its send is received when `proxyWebSocket` is at
its receive, a goroutine elsewhere is not, and after the receive the two
`Close` statements run through to the return whatever the goroutines do. -/
theorem Relay.progress (s : Relay)
    (h : s.observed = (if s.main = MainPc.receiving then 0 else 1) ∧
      s.clientOpen = decide (s.main = MainPc.receiving ∨ s.main = MainPc.closingClient) ∧
      s.destOpen = decide (s.main ≠ MainPc.returned)) :
    (s.main = MainPc.receiving → s.up = TaskPc.sending →
      s.step RelayEv.upHandoff
        = some { s with up := TaskPc.finished, main := MainPc.closingClient }) ∧
    (s.main = MainPc.receiving → s.down = TaskPc.sending →
      s.step RelayEv.downHandoff
        = some { s with down := TaskPc.finished, main := MainPc.closingClient }) ∧
    (s.up ≠ TaskPc.sending → s.step RelayEv.upHandoff = none) ∧
    (s.down ≠ TaskPc.sending → s.step RelayEv.downHandoff = none) ∧
    (s.main ≠ MainPc.receiving →
      Relay.run [RelayEv.mainNext, RelayEv.mainNext] s
        = { s with main := MainPc.returned, clientOpen := false, destOpen := false }) := by
  obtain ⟨main, up, down, c, d⟩ := s
  cases main <;> cases up <;> cases down <;>
    simp_all [Relay.step, Relay.observed, Relay.run]

/-- Claim C8, amended: under every schedule, (1) no goroutine has got past
its send on `done` while `proxyWebSocket` is at its receive and exactly one
has from then on; (2) the client connection is open exactly until the
statement after the receive and the backend connection exactly until the
return; (3) at the receive, the signal of a goroutine that has finished its
copy and is at its send is received, and of no other; (4) once a signal has
been received, the two `Close` statements run and `proxyWebSocket` returns
with both connections closed, whatever the other goroutine is doing and
without a second receive. -/
theorem proxyWebSocket_receives_once (sched : List RelayEv) :
    ((Relay.run sched Relay.start).observed
        = (if (Relay.run sched Relay.start).main = MainPc.receiving then 0 else 1)) ∧
    ((Relay.run sched Relay.start).clientOpen
        = decide ((Relay.run sched Relay.start).main = MainPc.receiving ∨
            (Relay.run sched Relay.start).main = MainPc.closingClient) ∧
      (Relay.run sched Relay.start).destOpen
        = decide ((Relay.run sched Relay.start).main ≠ MainPc.returned)) ∧
    (((Relay.run sched Relay.start).main = MainPc.receiving →
        (Relay.run sched Relay.start).up = TaskPc.sending →
        (Relay.run sched Relay.start).step RelayEv.upHandoff
          = some { Relay.run sched Relay.start with
                    up := TaskPc.finished, main := MainPc.closingClient }) ∧
      ((Relay.run sched Relay.start).main = MainPc.receiving →
        (Relay.run sched Relay.start).down = TaskPc.sending →
        (Relay.run sched Relay.start).step RelayEv.downHandoff
          = some { Relay.run sched Relay.start with
                    down := TaskPc.finished, main := MainPc.closingClient }) ∧
      ((Relay.run sched Relay.start).up ≠ TaskPc.sending →
        (Relay.run sched Relay.start).step RelayEv.upHandoff = none) ∧
      ((Relay.run sched Relay.start).down ≠ TaskPc.sending →
        (Relay.run sched Relay.start).step RelayEv.downHandoff = none)) ∧
    ((Relay.run sched Relay.start).main ≠ MainPc.receiving →
      Relay.run [RelayEv.mainNext, RelayEv.mainNext] (Relay.run sched Relay.start)
        = { Relay.run sched Relay.start with
            main := MainPc.returned, clientOpen := false, destOpen := false }) := by
  have hinv := Relay.run_inv sched Relay.start (by decide)
  obtain ⟨p1, p2, p3, p4, p5⟩ := Relay.progress _ hinv
  exact ⟨hinv.1, hinv.2, ⟨p1, p2, p3, p4⟩, p5⟩

/-- Witness of the amended C8: both copies have ended, the one client to
backend first, and the receive takes the signal of the other goroutine; the
two `Close` statements then bring `proxyWebSocket` to its return with both
connections closed, while the goroutine that ended first is still at its
send. -/
theorem proxyWebSocket_receives_once_witness :
    Relay.run [RelayEv.mainNext, RelayEv.mainNext]
        (Relay.run [RelayEv.upCopyEnds, RelayEv.downCopyEnds, RelayEv.downHandoff]
          Relay.start)
      = { main := MainPc.returned, up := TaskPc.sending, down := TaskPc.finished,
          clientOpen := false, destOpen := false } :=
  ((proxyWebSocket_receives_once
      [RelayEv.upCopyEnds, RelayEv.downCopyEnds, RelayEv.downHandoff]).2.2.2
    (by decide)).trans (by decide)

/-! ## Theorems on the reaper -/

theorem runEvents_append (evs more : List Event) (w : World) :
    runEvents (evs ++ more) w = runEvents more (runEvents evs w) := by
  unfold runEvents
  rw [List.foldl_append]

theorem runEvents_replicate_succ (k : Nat) (ev : Event) (w : World) :
    runEvents (List.replicate (k + 1) ev) w = Event.apply (runEvents (List.replicate k ev) w) ev := by
  rw [List.replicate_succ', runEvents_append]
  rfl

theorem runEvents_exit (cmd : Nat) (w : World) :
    runEvents [Event.exit cmd] w = reap cmd w := rfl

theorem filled_init : Filled 0 (World.init "key" "user") := by
  refine ⟨rfl, rfl, rfl, rfl, ?_, fun h => absurd h (by decide)⟩
  intro p
  constructor
  · intro h; exact absurd rfl h
  · intro h; omega

theorem filled_step (k : Nat) (w : World) (hk : k < 10000) (h : Filled k w) :
    Filled (k + 1) (Event.apply w spawnOk) := by
  obtain ⟨h1, h2, h3, h4, h5, h6⟩ := h
  rw [if_pos hk] at h4
  have hfree : Sessions.find w.m.nextPort w.m.sessions = none := by
    by_contra hne
    have := (h5 w.m.nextPort).1 hne
    omega
  obtain ⟨hport, hnext⟩ := allocatePort_of_free w.m (by omega) (by omega) (by omega) hfree
  obtain ⟨_, _, f3, f4, f5⟩ := allocatePort_frame w.m
  show Filled (k + 1) (spawnTTYD "203.0.113.5" true 0 w).2
  rw [spawnTTYD_ok, hport]
  refine ⟨by simp [h1], f4.trans h2, f5.trans h3, ?_, ?_, ?_⟩
  · show (allocatePort w.m).2.nextPort = _
    rw [hnext, h2, h3, h4]
    push_cast
    split_ifs <;> omega
  · intro p
    show Sessions.find p (Sessions.insert w.m.nextPort _ (allocatePort w.m).2.sessions) ≠ none ↔ _
    rw [f3]
    by_cases hp : p = w.m.nextPort
    · rw [hp, Sessions.find_insert_self]
      constructor
      · intro _; push_cast; omega
      · intro _; exact Option.noConfusion
    · rw [Sessions.find_insert_other _ _ _ _ hp, h5 p]
      push_cast
      constructor
      · intro hh; omega
      · intro hh; omega
  · intro _
    simp only [reaperPort]
    by_cases hz : w.nextCmd = 0
    · rw [if_pos hz]
      have : k = 0 := by omega
      rw [h4, this]; rfl
    · rw [if_neg hz]
      exact h6 (by omega)

theorem filled_run (k : Nat) (hk : k ≤ 10000) :
    Filled k (runEvents (List.replicate k spawnOk) (World.init "key" "user")) := by
  induction k with
  | zero => exact filled_init
  | succ n ih =>
    rw [runEvents_replicate_succ]
    exact filled_step n _ (by omega) (ih (by omega))

/-- The spawn on a saturated server: the allocator falls back to port 10000
and the new process 10000 takes over the entry of that port, while the
reaper of process 0 still waits with the same port. -/
theorem saturated_spawn (w : World) (h : Filled 10000 w) :
    Sessions.find 10000 (Event.apply w spawnOk).m.sessions
      = some { cmd := 10000, port := 10000, vmIP := "203.0.113.5", createdAt := 0 } ∧
    reaperPort 0 (Event.apply w spawnOk).reapers = some 10000 := by
  obtain ⟨h1, h2, h3, h4, h5, h6⟩ := h
  rw [if_neg (by decide)] at h4
  have hall : ∀ p, w.m.portStart ≤ p → p < w.m.portEnd → Sessions.find p w.m.sessions ≠ none := by
    intro p hp1 hp2
    exact (h5 p).2 ⟨by omega, by push_cast; omega⟩
  have halloc := allocatePort_of_full w.m (by omega) (by omega) hall
  show Sessions.find 10000 (spawnTTYD "203.0.113.5" true 0 w).2.m.sessions = _ ∧
    reaperPort 0 (spawnTTYD "203.0.113.5" true 0 w).2.reapers = _
  rw [spawnTTYD_ok, halloc, h4, h1]
  refine ⟨Sessions.find_insert_self _ _ _, ?_⟩
  simp only [reaperPort]
  rw [if_neg (by decide)]
  exact h6 (by decide)

theorem reap_sessions (cmd : Nat) (port : Int) (w : World)
    (h : reaperPort cmd w.reapers = some port) :
    (reap cmd w).m.sessions = Sessions.delete port w.m.sessions := by
  unfold reap
  rw [h]

/-- Counterexample to C2, on a server built by `NewManager`: process 0 is
spawned and registers port 10000; after 10000 spawns the range is full, so
the next spawn, process 10000, is given port 10000 again and its session
replaces the one of process 0; when process 0 then exits, its reaper deletes
port 10000 and with it the session of process 10000. -/
theorem reaper_removes_replacing_session :
    Sessions.find 10000
        (runEvents (List.replicate 1 spawnOk) (World.init "key" "user")).m.sessions
      = some { cmd := 0, port := 10000, vmIP := "203.0.113.5", createdAt := 0 } ∧
    Sessions.find 10000
        (runEvents (List.replicate 10001 spawnOk) (World.init "key" "user")).m.sessions
      = some { cmd := 10000, port := 10000, vmIP := "203.0.113.5", createdAt := 0 } ∧
    Sessions.find 10000
        (runEvents (List.replicate 10001 spawnOk ++ [Event.exit 0])
          (World.init "key" "user")).m.sessions
      = none := by
  have hsat := saturated_spawn _ (filled_run 10000 (le_refl _))
  rw [← runEvents_replicate_succ, show (10000 + 1 : Nat) = 10001 from rfl] at hsat
  refine ⟨by decide, hsat.1, ?_⟩
  rw [runEvents_append, runEvents_exit, reap_sessions 0 10000 _ hsat.2]
  exact Sessions.find_delete_self _ _

/-- Claim C2, amended: after every sequence of spawns and exits, the exit of
a process whose reaper captured port `p` removes whatever session is
registered under `p` at that moment, whichever process registered it, and
leaves the entry of every other port as it was: removal goes by port
number. -/
theorem reaper_removes_by_port (sshKeyPath sshUser : String) (evs : List Event) (cmd : Nat)
    (p : Int)
    (h : reaperPort cmd (runEvents evs (World.init sshKeyPath sshUser)).reapers = some p) :
    Sessions.find p
        (runEvents (evs ++ [Event.exit cmd]) (World.init sshKeyPath sshUser)).m.sessions
      = none ∧
    ∀ other, other ≠ p →
      Sessions.find other
          (runEvents (evs ++ [Event.exit cmd]) (World.init sshKeyPath sshUser)).m.sessions
        = Sessions.find other (runEvents evs (World.init sshKeyPath sshUser)).m.sessions := by
  rw [runEvents_append, runEvents_exit, reap_sessions cmd p _ h]
  exact ⟨Sessions.find_delete_self _ _, fun other ho => Sessions.find_delete_other _ _ _ ho⟩

/-- Witness of the amended C2: two spawns, then the first process exits; its
port 10000 is freed and the session on port 10001 stays. -/
theorem reaper_removes_by_port_witness :
    Sessions.find 10000
        (runEvents ([spawnOk, spawnOk] ++ [Event.exit 0]) (World.init "key" "user")).m.sessions
      = none ∧
    Sessions.find 10001
        (runEvents ([spawnOk, spawnOk] ++ [Event.exit 0]) (World.init "key" "user")).m.sessions
      = some { cmd := 1, port := 10001, vmIP := "203.0.113.5", createdAt := 0 } :=
  ⟨(reaper_removes_by_port "key" "user" [spawnOk, spawnOk] 0 10000 (by decide)).1,
    ((reaper_removes_by_port "key" "user" [spawnOk, spawnOk] 0 10000 (by decide)).2 10001
      (by decide)).trans (by decide)⟩

end Terminal
